import Mathlib

/-!
Verification development for the TrendRadar web-server orchestration core
(`trendradar/web/server.py`): the ingestion cycle (`fetch_news_data`), the
metrics ring/log (`_fetch_metrics`, `_append_fetch_metrics_batch`,
`_record_fetch_metrics`), the change detector
(`_last_platform_content_keys`), the metrics query endpoint
(`api_fetch_metrics`), the scheduler controls (`start_scheduler`,
`api_start_scheduler`), and the online-presence endpoints (`online_ping`,
`online_stats`).

The Python code is embedded shallowly: JSON dict fields become `Option`
fields, numbers become `ℚ`/`ℕ`/`ℤ` (the idealization of Python floats by
exact rationals is noted where it occurs), external collaborators
(config loader, crawler, storage backend) become explicit inputs, and a
`raise` escaping a collaborator becomes an explicit `Option String`
exception input.  Side effects (ring append, durable-log append, snapshot
persist, cache invalidation) are made visible as an explicit event trace.
-/

namespace TrendRadar

/-- Last `n` elements of a list, in order: Python's `l[-n:]` (for `n ≥ 1`),
which is also the tail kept by `deque(maxlen=n)` and by the metrics-log
truncation `lines[-n:]`. -/
def takeLast (n : ℕ) (l : List α) : List α := l.drop (l.length - n)

/-- Python `str.strip()` with no argument: drop leading and trailing
whitespace.  (Python also strips some non-ASCII unicode whitespace; every
string the claims touch is covered by `Char.isWhitespace`.) -/
def pyStrip (s : String) : String :=
  ⟨((s.data.dropWhile Char.isWhitespace).reverse.dropWhile
      Char.isWhitespace).reverse⟩

/-- Capacity of both the in-memory metrics ring and the durable metrics log:
`_FETCH_METRICS_MAX = 5000` in `trendradar/web/server.py`. -/
def FETCH_METRICS_MAX : ℕ := 5000

/-- One `append` of a Python `collections.deque(maxlen=cap)`: the new element
goes to the right end and, if the length would exceed `cap`, the leftmost
elements are discarded (for a deque respecting its bound, exactly one). -/
def dequeAppend (cap : ℕ) (r : List α) (x : α) : List α :=
  let r' := r ++ [x]
  if cap < r'.length then r'.drop (r'.length - cap) else r'

/-- `_record_fetch_metrics(metrics)`: appends each record of the batch, in
order, to the in-memory deque `_fetch_metrics` (under `_fetch_metrics_lock`;
an empty batch returns early, which appends nothing, as the fold does). -/
def recordFetchMetrics (ring : List α) (batch : List α) : List α :=
  batch.foldl (dequeAppend FETCH_METRICS_MAX) ring

/-- `_append_fetch_metrics_batch(metrics)` acting on the durable
`fetch_metrics.jsonl`, modelled as the list of its lines (one JSON record per
line, newest appended last): append the batch, then re-read the file and, if
the line count exceeds `_FETCH_METRICS_MAX`, rewrite it keeping only the most
recent `_FETCH_METRICS_MAX` lines.  An empty batch returns early.  This is
the success path; the swallowed-failure path is modelled in the ingestion
cycle (`runFetch`) by the `logWriteFails` input. -/
def appendLogBatch (log : List α) (batch : List α) : List α :=
  if batch.isEmpty then log
  else
    let l := log ++ batch
    if FETCH_METRICS_MAX < l.length then takeLast FETCH_METRICS_MAX l else l

/-- The change detection inlined in `fetch_news_data` (around
`_last_platform_content_keys`): `prev` is the stored snapshot for the
platform (`none` when the key is absent), `current` the crawl's
`_content_keys`.  If no prior snapshot exists or it is empty, every current
id is new (`changed_count = len(content_keys)`); otherwise
`changed_count = sum(1 for k in content_keys if k not in prev_set)`. -/
def computeChanged (prev : Option (List String)) (current : List String) : ℕ :=
  match prev with
  | none => current.length
  | some p =>
    if p = [] then current.length
    else current.countP (fun k => decide (k ∉ p))

/-! ### Metric records -/

/-- One fetch-metric record as it sits in the in-memory ring `_fetch_metrics`
and (one JSON object per line) in `fetch_metrics.jsonl`: a dict whose fields
may be absent or null (`none`).  Numeric values are idealized as exact
rationals `ℚ` (they are Python ints and floats in the code). -/
structure Metric where
  platform_id : Option String
  platform_name : Option String
  provider : Option String
  status : Option String
  duration_ms : Option ℚ
  items_count : Option ℚ
  changed_count : Option ℚ
  content_hash : Option String
  fetched_at : Option String
deriving DecidableEq

/-- A per-source metric dict from `fetcher.last_crawl_metrics` (only the dict
entries: `fetch_news_data` skips non-dict entries), before the loop stamps
`fetched_at` and `changed_count`.  `content_keys` models the popped
`_content_keys` entry: `none` when the key is absent or its value is not a
list. -/
structure RawMetric where
  platform_id : Option String
  platform_name : Option String
  provider : Option String
  status : Option String
  duration_ms : Option ℚ
  items_count : Option ℚ
  content_hash : Option String
  content_keys : Option (List String)
deriving DecidableEq

/-- Lookup in the `_last_platform_content_keys` dict (platform id → content
keys stored by the most recent crawl that reported keys for it). -/
def snapLookup (pm : List (String × List String)) (pid : String) :
    Option (List String) :=
  match pm.find? (fun p => p.1 == pid) with
  | some p => some p.2
  | none => none

/-- `_last_platform_content_keys[pid] = keys`: overwrite in place, or insert
at the end when the key is new (Python dicts keep insertion order). -/
def snapSet (pm : List (String × List String)) (pid : String)
    (keys : List String) : List (String × List String) :=
  if (pm.find? (fun p => p.1 == pid)).isSome then
    pm.map (fun p => if p.1 == pid then (pid, keys) else p)
  else pm ++ [(pid, keys)]

/-- The per-record body of the metrics loop in `fetch_news_data`: copy the
dict, stamp `fetched_at`, and — when the stripped platform id is non-empty
and `_content_keys` is a list — compute `changed_count` via `computeChanged`
against the stored snapshot and then unconditionally overwrite the snapshot
with the current keys; in every other case `changed_count` is `None` and the
snapshot is untouched. -/
def stampMetric (pm : List (String × List String)) (now_str : String)
    (m : RawMetric) : List (String × List String) × Metric :=
  let pid := pyStrip (m.platform_id.getD "")
  match m.content_keys with
  | some keys =>
    if pid == "" then
      (pm, ⟨m.platform_id, m.platform_name, m.provider, m.status,
            m.duration_ms, m.items_count, none, m.content_hash, some now_str⟩)
    else
      let changed := computeChanged (snapLookup pm pid) keys
      (snapSet pm pid keys,
       ⟨m.platform_id, m.platform_name, m.provider, m.status, m.duration_ms,
        m.items_count, some (changed : ℚ), m.content_hash, some now_str⟩)
  | none =>
    (pm, ⟨m.platform_id, m.platform_name, m.provider, m.status, m.duration_ms,
          m.items_count, none, m.content_hash, some now_str⟩)

/-- The whole metrics loop of `fetch_news_data`: fold `stampMetric` over the
crawler's metric list, threading the snapshot dict and collecting the batch
(`batch_metrics`) in order. -/
def stampBatch (pm : List (String × List String)) (now_str : String)
    (ms : List RawMetric) : List (String × List String) × List Metric :=
  ms.foldl (fun acc m =>
    let r := stampMetric acc.1 now_str m
    (r.1, acc.2 ++ [r.2])) (pm, [])

/-! ### The ingestion cycle -/

/-- The externally visible side-effect steps of one ingestion cycle, in the
order they execute.  `persist` is emitted only when
`storage.save_news_data` succeeds (a raising persist aborts the cycle);
`ringAppend`/`logAppend` are emitted when a non-empty metrics batch is
handed to `_record_fetch_metrics` / `_append_fetch_metrics_batch`. -/
inductive Ev
  | ringAppend
  | logAppend
  | persist
  | cacheClear
deriving DecidableEq

/-- The cycle's return value: `{"success": True, "platforms": …,
"news_count": …}` (the spec's `sources` / `items_count`) or
`{"success": False, "error": …}`. -/
inductive CycleResult
  | ok (platforms news_count : ℕ)
  | err (msg : String)
deriving DecidableEq

/-- The collaborators of one `fetch_news_data` invocation.  A collaborator
that raises is modelled by its `…Error : Option String` input holding the
exception message (`str(e)`); the outer `try/except` of
`_run_blocking_fetch` converts any of these into an `err` result.
`crawlResults` holds, per platform that returned data, the number of items
(`len(items)` of `crawl_results` values); `logWriteFails` makes the durable
metrics-log append raise (which `_append_fetch_metrics_batch` swallows). -/
structure CycleEnv where
  configError : Option String
  platforms : List (String × String)
  crawlError : Option String
  crawlResults : List (String × ℕ)
  crawlMetrics : List RawMetric
  convertError : Option String
  saveError : Option String
  logWriteFails : Bool
  now_str : String
deriving DecidableEq

/-- The mutable state `fetch_news_data` touches that the claims observe:
the in-memory ring `_fetch_metrics`, the durable log (as its line list), and
`_last_platform_content_keys`. -/
structure CycleState where
  ring : List Metric
  log : List Metric
  snapshots : List (String × List String)
deriving DecidableEq

structure CycleOut where
  result : CycleResult
  state : CycleState
  trace : List Ev
deriving DecidableEq

/-- `fetch_news_data` (the body `_run_blocking_fetch`, run in a worker
thread): load config; fail (`"未配置平台"`) when no platforms are
configured; crawl; stamp and record the metrics batch (ring first, then the
best-effort durable log); fail (`"未获取到数据"`) when no platform returned
results; convert and persist the snapshot; on success clear the caches and
answer with the platform and item counts.  Any collaborator exception is
caught by the outer `try/except` and returned as `err` with its message;
the function never raises.  (Side effects not observed by any claim —
provider ingestion, `_last_fetch_time`, service-instance reset — are not
part of the model's state.) -/
def runFetch (env : CycleEnv) (s : CycleState) : CycleOut :=
  match env.configError with
  | some e => ⟨.err e, s, []⟩
  | none =>
    if env.platforms.isEmpty then ⟨.err "未配置平台", s, []⟩
    else
      match env.crawlError with
      | some e => ⟨.err e, s, []⟩
      | none =>
        let pb := stampBatch s.snapshots env.now_str env.crawlMetrics
        let ring := recordFetchMetrics s.ring pb.2
        let log := if env.logWriteFails then s.log else appendLogBatch s.log pb.2
        let evs := if pb.2.isEmpty then [] else [Ev.ringAppend, Ev.logAppend]
        let s' : CycleState := ⟨ring, log, pb.1⟩
        if env.crawlResults.isEmpty then ⟨.err "未获取到数据", s', evs⟩
        else
          match env.convertError with
          | some e => ⟨.err e, s', evs⟩
          | none =>
            match env.saveError with
            | some e => ⟨.err e, s', evs⟩
            | none =>
              ⟨.ok env.crawlResults.length (env.crawlResults.map Prod.snd).sum,
               s', evs ++ [Ev.persist, Ev.cacheClear]⟩

/-- `true` iff every occurrence of `b` in the trace has a strictly earlier
occurrence of `a` (`seen` carries whether an `a` has occurred yet). -/
def eachPrecededBy (a b : Ev) (seen : Bool) : List Ev → Bool
  | [] => true
  | x :: xs =>
    if x == b && !seen then false
    else eachPrecededBy a b (seen || x == a) xs

/-- `true` iff no occurrence of `b` in the trace comes after an occurrence
of `a`. -/
def noneAfter (a b : Ev) (seen : Bool) : List Ev → Bool
  | [] => true
  | x :: xs =>
    if x == b && seen then false
    else noneAfter a b (seen || x == a) xs

/-! ### The metrics query endpoint -/

/-- Python truthiness of an optional string query parameter (`if provider:`,
`if platform:`): present and non-empty. -/
def truthy : Option String → Bool
  | none => false
  | some s => !(s == "")

/-- `str(m.get("platform_id") or "").strip()`. -/
def platKey (m : Metric) : String := pyStrip (m.platform_id.getD "")

/-- `str(m.get("provider") or "").strip()`. -/
def provKey (m : Metric) : String := pyStrip (m.provider.getD "")

/-- `str(m.get("status") or "").strip()`. -/
def statusKey (m : Metric) : String := pyStrip (m.status.getD "")

/-- The summary group key: `str(m.get("platform_id") or "").strip() or
"unknown"`. -/
def groupKey (m : Metric) : String :=
  let s := platKey m
  if s == "" then "unknown" else s

/-- A summary entry while the loop is running: the emitted fields plus the
running `_dur_sum`/`_dur_n`/… accumulators (absent accumulator keys are 0,
matching `setdefault(…, 0)`). -/
structure SumEnt where
  platform_id : String
  platform_name : String
  provider : String
  success : ℕ
  cache : ℕ
  error : ℕ
  last_status : Option String
  last_fetched_at : Option String
  last_changed_count : Option ℚ
  last_content_hash : Option String
  dur_sum : ℚ
  dur_n : ℕ
  cnt_sum : ℚ
  cnt_n : ℕ
  chg_sum : ℚ
  chg_n : ℕ
deriving DecidableEq

/-- A fresh summary entry for key `pid`, created at that key's first record
`m` (`platform_name` falls back to the pid via Python `or`; `provider`
falls back to `""`). -/
def initEnt (pid : String) (m : Metric) : SumEnt :=
  { platform_id := pid
    platform_name := (let n := m.platform_name.getD ""; if n == "" then pid else n)
    provider := m.provider.getD ""
    success := 0, cache := 0, error := 0
    last_status := none, last_fetched_at := none
    last_changed_count := none, last_content_hash := none
    dur_sum := 0, dur_n := 0, cnt_sum := 0, cnt_n := 0, chg_sum := 0, chg_n := 0 }

/-- One record's contribution to its summary entry: bump the status counter
(`st in ("success", "cache", "error")` picks that counter, anything else
counts as `error`), refresh the `last_*` fields, and add each of
`duration_ms` / `items_count` / `changed_count` to its running sum and count
only when the value is numeric. -/
def updEnt (e : SumEnt) (m : Metric) : SumEnt :=
  let st := statusKey m
  let e := if st == "success" then { e with success := e.success + 1 }
           else if st == "cache" then { e with cache := e.cache + 1 }
           else { e with error := e.error + 1 }
  let e := { e with last_status := some st, last_fetched_at := m.fetched_at,
                    last_changed_count := m.changed_count,
                    last_content_hash := m.content_hash }
  let e := match m.duration_ms with
           | some d => { e with dur_sum := e.dur_sum + d, dur_n := e.dur_n + 1 }
           | none => e
  let e := match m.items_count with
           | some c => { e with cnt_sum := e.cnt_sum + c, cnt_n := e.cnt_n + 1 }
           | none => e
  match m.changed_count with
  | some c => { e with chg_sum := e.chg_sum + c, chg_n := e.chg_n + 1 }
  | none => e

/-- `summary.get(pid)` on the insertion-ordered dict, modelled as an
association list: the first (and, keys being unique, only) value stored
under the key. -/
def assocLookup (acc : List (String × β)) (k : String) : Option β :=
  match acc with
  | [] => none
  | p :: rest => if p.1 == k then some p.2 else assocLookup rest k

/-- One iteration of the summary loop: update the existing entry for the
record's group key in place, or append a fresh one (Python dict insertion
order). -/
def sumStep (acc : List (String × SumEnt)) (m : Metric) : List (String × SumEnt) :=
  let pid := groupKey m
  match assocLookup acc pid with
  | some e => acc.map (fun p => if p.1 == pid then (p.1, updEnt e m) else p)
  | none => acc ++ [(pid, updEnt (initEnt pid m) m)]

/-- Python `int(x)` applied to a (rational-idealized) float: truncation
toward zero. -/
def pyTrunc (q : ℚ) : ℤ := if 0 ≤ q then ⌊q⌋ else ⌈q⌉

/-- Python `round(x, 2)` idealized over exact rationals: round half to even
at two decimal places.  (CPython rounds the nearest binary double; no claim
here depends on that difference.) -/
def roundHalfEven (q : ℚ) : ℤ :=
  let f := ⌊q⌋
  let r := q - f
  if r < 1/2 then f
  else if 1/2 < r then f + 1
  else if f % 2 = 0 then f else f + 1

def pyRound2 (q : ℚ) : ℚ := (roundHalfEven (q * 100) : ℚ) / 100

/-- A finalized summary entry as serialized in the response. -/
structure SumOut where
  platform_id : String
  platform_name : String
  provider : String
  success : ℕ
  cache : ℕ
  error : ℕ
  avg_duration_ms : Option ℤ
  avg_items_count : Option ℚ
  avg_changed_count : Option ℚ
  last_status : Option String
  last_fetched_at : Option String
  last_changed_count : Option ℚ
  last_content_hash : Option String
deriving DecidableEq

/-- The finalization pass of `api_fetch_metrics`: pop the accumulators and
fill each `avg_*` field only when its count is non-zero (`if dn:` …),
leaving it `None` otherwise — never 0.  `avg_duration_ms` is
`int(ds / dn)`, the other two are `round(s / n, 2)`. -/
def finalizeEnt (e : SumEnt) : SumOut :=
  { platform_id := e.platform_id, platform_name := e.platform_name
    provider := e.provider, success := e.success, cache := e.cache
    error := e.error
    avg_duration_ms :=
      if e.dur_n ≠ 0 then some (pyTrunc (e.dur_sum / e.dur_n)) else none
    avg_items_count :=
      if e.cnt_n ≠ 0 then some (pyRound2 (e.cnt_sum / e.cnt_n)) else none
    avg_changed_count :=
      if e.chg_n ≠ 0 then some (pyRound2 (e.chg_sum / e.chg_n)) else none
    last_status := e.last_status, last_fetched_at := e.last_fetched_at
    last_changed_count := e.last_changed_count
    last_content_hash := e.last_content_hash }

structure MetricsResp where
  limit : ℕ
  metrics : List Metric
  summary : List SumOut
deriving DecidableEq

/-- The filtering stage of `api_fetch_metrics`: filter by provider and then
by platform, each only when the query parameter is truthy, comparing the
stripped record field for equality with the parameter. -/
def filterMetrics (buf : List Metric) (platform provider : Option String) :
    List Metric :=
  let items := if truthy provider
               then buf.filter (fun m => provKey m == provider.getD "")
               else buf
  if truthy platform
  then items.filter (fun m => platKey m == platform.getD "")
  else items

/-- `GET /api/fetch-metrics` (`api_fetch_metrics`): snapshot the ring under
the lock (`buf`), apply the two filters, keep the most recent `limit`
entries (`items[-limit:]`; FastAPI enforces
`1 ≤ limit ≤ _FETCH_METRICS_MAX`), then build the per-platform summary in
first-appearance order and finalize it. -/
def apiFetchMetrics (buf : List Metric) (limit : ℕ)
    (platform provider : Option String) : MetricsResp :=
  let items := takeLast limit (filterMetrics buf platform provider)
  ⟨limit, items, (items.foldl sumStep []).map (fun p => finalizeEnt p.2)⟩

/-- The records of the window that the summary groups under key `pid`. -/
def grp (pid : String) (w : List Metric) : List Metric :=
  w.filter (fun m => groupKey m == pid)

/-- The present (numeric) `duration_ms` values of a record list, in order. -/
def durVals (g : List Metric) : List ℚ := g.filterMap (fun m => m.duration_ms)

/-- The present (numeric) `items_count` values of a record list, in order. -/
def cntVals (g : List Metric) : List ℚ := g.filterMap (fun m => m.items_count)

/-- The present (numeric) `changed_count` values of a record list, in
order. -/
def chgVals (g : List Metric) : List ℚ := g.filterMap (fun m => m.changed_count)

/-- The summary entry the loop builds for group key `pid` out of that key's
window records `g` (in window order), written as a direct tally: used to
characterize the fold `sumStep`. -/
def entSpec (pid : String) (g : List Metric) : SumEnt :=
  { platform_id := pid
    platform_name :=
      match g.head? with
      | some m0 => (let n := m0.platform_name.getD ""; if n == "" then pid else n)
      | none => pid
    provider :=
      match g.head? with
      | some m0 => m0.provider.getD ""
      | none => ""
    success := g.countP (fun m => statusKey m == "success")
    cache := g.countP (fun m => !(statusKey m == "success") && (statusKey m == "cache"))
    error := g.countP (fun m => !(statusKey m == "success") && !(statusKey m == "cache"))
    last_status := g.getLast?.map statusKey
    last_fetched_at := g.getLast?.bind (fun m => m.fetched_at)
    last_changed_count := g.getLast?.bind (fun m => m.changed_count)
    last_content_hash := g.getLast?.bind (fun m => m.content_hash)
    dur_sum := (durVals g).sum
    dur_n := (durVals g).length
    cnt_sum := (cntVals g).sum
    cnt_n := (cntVals g).length
    chg_sum := (chgVals g).sum
    chg_n := (chgVals g).length }

/-! ### The scheduler controls -/

/-- The scheduler globals: `_scheduler_running`, `_fetch_interval_minutes`,
and `_scheduler_task` (task handles modelled as numbers). -/
structure SchedulerState where
  running : Bool
  interval_minutes : ℕ
  task : Option ℕ
deriving DecidableEq

/-- What one `start_scheduler` call does and makes observable: the new
global state, the task spawned by `asyncio.create_task` (if any), and the
console print.  The Python function itself returns `None` on both paths. -/
structure StartOutcome where
  state : SchedulerState
  spawned : Option ℕ
  log : String
deriving DecidableEq

/-- `start_scheduler(interval_minutes)`: when already running, print the
warning and return without touching any global and without creating a task;
otherwise store the interval, flip `_scheduler_running`, and spawn the
periodic loop. -/
def startScheduler (s : SchedulerState) (interval : ℕ) (newTask : ℕ) :
    StartOutcome :=
  if s.running then
    { state := s, spawned := none, log := "⚠️ 定时任务已在运行中" }
  else
    { state := { running := true, interval_minutes := interval,
                 task := some newTask }
      spawned := some newTask
      log := "✅ 定时任务已启动，间隔: " ++ toString interval ++ " 分钟" }

/-- The body of `POST /api/scheduler/start`'s JSON answer. -/
structure StartResp where
  success : Bool
  message : String
  interval_minutes : ℕ
deriving DecidableEq

/-- `POST /api/scheduler/start` (`api_start_scheduler`): call
`start_scheduler(interval)` and answer — unconditionally — with
`success: True` and a message echoing the requested interval. -/
def apiStartScheduler (s : SchedulerState) (interval : ℕ) (newTask : ℕ) :
    SchedulerState × StartResp :=
  ((startScheduler s interval newTask).state,
   { success := true
     message := "定时任务已启动，间隔 " ++ toString interval ++ " 分钟"
     interval_minutes := interval })

/-! ### Online presence -/

/-- The result of `POST /api/online/ping`: `{ok: true}` or an HTTP 400 with
`{detail: …}`. -/
inductive PingResp
  | ok
  | badRequest (detail : String)
deriving DecidableEq

/-- `INSERT OR REPLACE INTO online_sessions(session_id, last_seen)`:
replace the row with this primary key (modelled as delete-then-append; row
order never matters to the count queries). -/
def upsertSession (db : List (String × ℤ)) (sid : String) (now : ℤ) :
    List (String × ℤ) :=
  db.filter (fun r => !(r.1 == sid)) ++ [(sid, now)]

/-- `DELETE FROM online_sessions WHERE last_seen < now - 86400`. -/
def pruneSessions (db : List (String × ℤ)) (now : ℤ) : List (String × ℤ) :=
  db.filter (fun r => !(decide (r.2 < now - 86400)))

/-- `POST /api/online/ping` (`online_ping`): `sessionField` is
`body.get("session_id")` (`none` when the body has no such key or failed to
parse as JSON).  An id that strips to the empty string is rejected with the
400 detail before any database access; otherwise the session is upserted
with `last_seen = now` and sessions older than 24 hours are pruned in the
same transaction, then `{ok: true}` is returned. -/
def onlinePing (db : List (String × ℤ)) (now : ℤ)
    (sessionField : Option String) : PingResp × List (String × ℤ) :=
  let sid := pyStrip (sessionField.getD "")
  if sid == "" then (.badRequest "Missing session_id", db)
  else (.ok, pruneSessions (upsertSession db sid now) now)

/-- `SELECT COUNT(*) FROM online_sessions WHERE last_seen >= ?` with
parameter `now - seconds`. -/
def countSince (db : List (String × ℤ)) (now seconds : ℤ) : ℕ :=
  (db.filter (fun r => decide (now - seconds ≤ r.2))).length

/-- The body of `GET /api/online`'s JSON answer. -/
structure OnlineStats where
  online_1m : ℕ
  online_5m : ℕ
  online_15m : ℕ
  server_time : ℤ
deriving DecidableEq

/-- `GET /api/online` (`online_stats`): three sliding-window range counts
over the same table, plus the server's current epoch time. -/
def onlineStats (db : List (String × ℤ)) (now : ℤ) : OnlineStats :=
  { online_1m := countSince db now 60
    online_5m := countSince db now (5 * 60)
    online_15m := countSince db now (15 * 60)
    server_time := now }

/-! ### Supporting lemmas for `takeLast` -/

theorem takeLast_of_length_le (n : ℕ) (l : List α) (h : l.length ≤ n) :
    takeLast n l = l := by
  unfold takeLast
  have : l.length - n = 0 := by omega
  simp [this]

theorem length_takeLast (n : ℕ) (l : List α) :
    (takeLast n l).length = min n l.length := by
  unfold takeLast
  simp [List.length_drop]
  omega

theorem takeLast_append_of_le (n : ℕ) (A B : List α) (h : n ≤ B.length) :
    takeLast n (A ++ B) = takeLast n B := by
  unfold takeLast
  have harith : A.length + B.length - n = A.length + (B.length - n) := by omega
  rw [List.length_append, harith, List.drop_append]

theorem takeLast_takeLast_append (n : ℕ) (A B : List α) :
    takeLast n (takeLast n A ++ B) = takeLast n (A ++ B) := by
  by_cases hA : A.length ≤ n
  · rw [takeLast_of_length_le n A hA]
  · have hlen : (takeLast n A).length = n := by
      rw [length_takeLast]; omega
    by_cases hB : n ≤ B.length
    · rw [takeLast_append_of_le n _ B hB, takeLast_append_of_le n A B hB]
    · have h1 : (List.drop (A.length - n) A).length = n := by
        rw [List.length_drop]; omega
      unfold takeLast
      rw [List.length_append, List.length_append, h1]
      have h2 : n + B.length - n = B.length := by omega
      rw [h2]
      rw [List.drop_append_of_le_length (by omega : B.length ≤ (List.drop (A.length - n) A).length)]
      rw [List.drop_append_of_le_length (by omega : A.length + B.length - n ≤ A.length)]
      rw [List.drop_drop]
      congr 2
      omega

theorem dequeAppend_eq_takeLast (cap : ℕ) (r : List α) (x : α) :
    dequeAppend cap r x = takeLast cap (r ++ [x]) := by
  unfold dequeAppend takeLast
  by_cases h : cap < (r ++ [x]).length
  · rw [if_pos h]
  · rw [if_neg h]
    have h0 : (r ++ [x]).length - cap = 0 := by omega
    rw [h0, List.drop_zero]

theorem foldl_dequeAppend_eq_takeLast (cap : ℕ) (r : List α) (xs : List α)
    (h : r.length ≤ cap) :
    xs.foldl (dequeAppend cap) r = takeLast cap (r ++ xs) := by
  induction xs generalizing r with
  | nil => simp [takeLast_of_length_le cap r h]
  | cons x xs ih =>
    rw [List.foldl_cons, dequeAppend_eq_takeLast]
    rw [ih _ (by rw [length_takeLast]; omega)]
    rw [takeLast_takeLast_append]
    simp

theorem appendLogBatch_eq_takeLast (log batch : List α)
    (h : log.length ≤ FETCH_METRICS_MAX) :
    appendLogBatch log batch = takeLast FETCH_METRICS_MAX (log ++ batch) := by
  unfold appendLogBatch
  by_cases hb : batch.isEmpty
  · rw [List.isEmpty_iff] at hb
    simp [hb, takeLast_of_length_le _ _ h]
  · simp only [hb, Bool.false_eq_true, if_false]
    by_cases hlen : FETCH_METRICS_MAX < (log ++ batch).length
    · rw [if_pos hlen]
    · rw [if_neg hlen, takeLast_of_length_le _ _ (by simp at hlen ⊢; omega)]

theorem foldl_appendLogBatch_eq_takeLast (log : List α) (batches : List (List α))
    (h : log.length ≤ FETCH_METRICS_MAX) :
    batches.foldl appendLogBatch log =
      takeLast FETCH_METRICS_MAX (log ++ batches.flatten) := by
  induction batches generalizing log with
  | nil => simp [takeLast_of_length_le _ _ h]
  | cons b bs ih =>
    rw [List.foldl_cons, appendLogBatch_eq_takeLast _ _ h]
    rw [ih _ (by rw [length_takeLast]; omega)]
    rw [takeLast_takeLast_append, List.flatten_cons, List.append_assoc]

/-! ### The shape of one ingestion cycle -/

theorem runFetch_result (env : CycleEnv) (s : CycleState) :
    (runFetch env s).result =
      (match env.configError with
       | some e => CycleResult.err e
       | none =>
         if env.platforms.isEmpty then CycleResult.err "未配置平台"
         else match env.crawlError with
           | some e => CycleResult.err e
           | none =>
             if env.crawlResults.isEmpty then CycleResult.err "未获取到数据"
             else match env.convertError with
               | some e => CycleResult.err e
               | none => match env.saveError with
                 | some e => CycleResult.err e
                 | none => CycleResult.ok env.crawlResults.length
                     (env.crawlResults.map Prod.snd).sum) := by
  unfold runFetch
  cases hc : env.configError with
  | some e => rfl
  | none =>
    cases hp : env.platforms.isEmpty with
    | true => rfl
    | false =>
      cases hw : env.crawlError with
      | some e => rfl
      | none =>
        cases hr : env.crawlResults.isEmpty with
        | true => rfl
        | false =>
          cases env.convertError with
          | some e => rfl
          | none =>
            cases env.saveError with
            | some e => rfl
            | none => rfl

theorem runFetch_trace (env : CycleEnv) (s : CycleState) :
    (runFetch env s).trace = [] ∨
    (runFetch env s).trace = [Ev.ringAppend, Ev.logAppend] ∨
    (runFetch env s).trace = [Ev.ringAppend, Ev.logAppend, Ev.persist, Ev.cacheClear] ∨
    (runFetch env s).trace = [Ev.persist, Ev.cacheClear] := by
  unfold runFetch
  cases hc : env.configError with
  | some e => left; rfl
  | none =>
    cases hp : env.platforms.isEmpty with
    | true => left; rfl
    | false =>
      cases hw : env.crawlError with
      | some e => left; rfl
      | none =>
        cases hb : (stampBatch s.snapshots env.now_str env.crawlMetrics).2.isEmpty with
        | true =>
          cases hr : env.crawlResults.isEmpty with
          | true => left; simp [hb]
          | false =>
            cases env.convertError with
            | some e => left; simp [hb]
            | none =>
              cases env.saveError with
              | some e => left; simp [hb]
              | none => right; right; right; simp [hb]
        | false =>
          cases hr : env.crawlResults.isEmpty with
          | true => right; left; simp [hb]
          | false =>
            cases env.convertError with
            | some e => right; left; simp [hb]
            | none =>
              cases env.saveError with
              | some e => right; left; simp [hb]
              | none => right; right; left; simp [hb]

theorem runFetch_ring (env : CycleEnv) (s : CycleState) :
    (runFetch env s).state.ring =
      if env.configError = none ∧ env.platforms.isEmpty = false ∧
          env.crawlError = none
      then recordFetchMetrics s.ring
        (stampBatch s.snapshots env.now_str env.crawlMetrics).2
      else s.ring := by
  unfold runFetch
  cases hc : env.configError with
  | some e => simp
  | none =>
    cases hp : env.platforms.isEmpty with
    | true => simp
    | false =>
      cases hw : env.crawlError with
      | some e => simp
      | none =>
        cases hr : env.crawlResults.isEmpty with
        | true => simp
        | false =>
          cases env.convertError with
          | some e => simp
          | none =>
            cases env.saveError with
            | some e => simp
            | none => simp

theorem runFetch_snapshots (env : CycleEnv) (s : CycleState) :
    (runFetch env s).state.snapshots =
      if env.configError = none ∧ env.platforms.isEmpty = false ∧
          env.crawlError = none
      then (stampBatch s.snapshots env.now_str env.crawlMetrics).1
      else s.snapshots := by
  unfold runFetch
  cases hc : env.configError with
  | some e => simp
  | none =>
    cases hp : env.platforms.isEmpty with
    | true => simp
    | false =>
      cases hw : env.crawlError with
      | some e => simp
      | none =>
        cases hr : env.crawlResults.isEmpty with
        | true => simp
        | false =>
          cases env.convertError with
          | some e => simp
          | none =>
            cases env.saveError with
            | some e => simp
            | none => simp

/-! ### C1 — the cycle result -/

/-- C1: whenever `fetch_news_data` reports success, the two numbers it
returns are exactly the count of sources that returned results and the sum
of their item counts (the code's `platforms` / `news_count` keys carry the
spec's `sources` / `items_count`); and each collaborator exception reached
by the control flow is caught and turned into `{success: false,
error: str(e)}`.  The embedded cycle is a total function into
`CycleResult`, which is the model of "never propagates an uncaught
exception to the caller" (the swallowed durable-log failure
`logWriteFails` does not appear below because it never decides the
result). -/
theorem cycle_result_spec (env : CycleEnv) (s : CycleState) :
    (∀ n t, (runFetch env s).result = CycleResult.ok n t →
      n = env.crawlResults.length ∧ t = (env.crawlResults.map Prod.snd).sum) ∧
    (∀ e, env.configError = some e →
      (runFetch env s).result = CycleResult.err e) ∧
    (∀ e, env.configError = none → env.platforms ≠ [] →
      env.crawlError = some e → (runFetch env s).result = CycleResult.err e) ∧
    (∀ e, env.configError = none → env.platforms ≠ [] →
      env.crawlError = none → env.crawlResults ≠ [] →
      env.convertError = some e → (runFetch env s).result = CycleResult.err e) ∧
    (∀ e, env.configError = none → env.platforms ≠ [] →
      env.crawlError = none → env.crawlResults ≠ [] →
      env.convertError = none → env.saveError = some e →
      (runFetch env s).result = CycleResult.err e) := by
  rw [runFetch_result]
  refine ⟨?_, ?_, ?_, ?_, ?_⟩
  · intro n t h
    cases hc : env.configError with
    | some e => rw [hc] at h; exact absurd h (by simp)
    | none =>
      rw [hc] at h
      cases hp : env.platforms.isEmpty with
      | true => rw [hp] at h; exact absurd h (by simp)
      | false =>
        rw [hp] at h
        cases hw : env.crawlError with
        | some e => rw [hw] at h; exact absurd h (by simp)
        | none =>
          rw [hw] at h
          cases hr : env.crawlResults.isEmpty with
          | true => rw [hr] at h; exact absurd h (by simp)
          | false =>
            rw [hr] at h
            cases hv : env.convertError with
            | some e => rw [hv] at h; exact absurd h (by simp)
            | none =>
              rw [hv] at h
              cases hs : env.saveError with
              | some e => rw [hs] at h; exact absurd h (by simp)
              | none =>
                rw [hs] at h
                simp only [Bool.false_eq_true, if_false, CycleResult.ok.injEq] at h
                exact ⟨h.1.symm, h.2.symm⟩
  · intro e hc
    rw [hc]
  · intro e hc hplat hw
    rw [hc, hw, if_neg (by simpa [List.isEmpty_iff] using hplat)]
  · intro e hc hplat hw hr hv
    rw [hc, hw, hv, if_neg (by simpa [List.isEmpty_iff] using hplat),
      if_neg (by simpa [List.isEmpty_iff] using hr)]
  · intro e hc hplat hw hr hv hs
    rw [hc, hw, hv, hs, if_neg (by simpa [List.isEmpty_iff] using hplat),
      if_neg (by simpa [List.isEmpty_iff] using hr)]

theorem cycle_result_spec_witness :
    2 = [(("a" : String), 5), ("b", 3)].length ∧
    8 = ([(("a" : String), 5), ("b", 3)].map Prod.snd).sum :=
  (cycle_result_spec
    ⟨none, [("a", "A"), ("b", "B"), ("c", "C")], none,
     [("a", 5), ("b", 3)], [], none, none, false, "t"⟩
    ⟨[], [], []⟩).1 2 8 (by rfl)

/-! ### C4 — intra-cycle ordering -/

/-- C4: in the event trace of any single ingestion cycle, every
cache-invalidation signal is strictly preceded by a successful persist, and
no metric append (in-memory ring or durable log) ever comes after the
persist step — the appends happen before persisting, and invalidation
happens only after a successful persist. -/
theorem cycle_event_order (env : CycleEnv) (s : CycleState) :
    eachPrecededBy Ev.persist Ev.cacheClear false (runFetch env s).trace = true ∧
    noneAfter Ev.persist Ev.ringAppend false (runFetch env s).trace = true ∧
    noneAfter Ev.persist Ev.logAppend false (runFetch env s).trace = true := by
  rcases runFetch_trace env s with h | h | h | h <;> rw [h] <;>
    exact ⟨by decide, by decide, by decide⟩

/-! ### C8 — durable metrics-log failure is harmless -/

/-- C8: running the same cycle with the durable metrics-log write raising
(and being swallowed by `_append_fetch_metrics_batch`) instead of
succeeding changes neither the cycle result nor the in-memory ring nor the
change-detector snapshots; and whenever the metrics stage is reached at
all, the ring ends up with exactly the stamped batch appended — the
in-memory records are not lost and the cycle is not failed by the durable
mirror's failure. -/
theorem metrics_log_failure_harmless (env : CycleEnv) (s : CycleState) :
    (runFetch { env with logWriteFails := true } s).result =
      (runFetch { env with logWriteFails := false } s).result ∧
    (runFetch { env with logWriteFails := true } s).state.ring =
      (runFetch { env with logWriteFails := false } s).state.ring ∧
    (runFetch { env with logWriteFails := true } s).state.snapshots =
      (runFetch { env with logWriteFails := false } s).state.snapshots ∧
    (env.configError = none → env.platforms ≠ [] → env.crawlError = none →
      (runFetch { env with logWriteFails := true } s).state.ring =
        recordFetchMetrics s.ring
          (stampBatch s.snapshots env.now_str env.crawlMetrics).2) := by
  refine ⟨?_, ?_, ?_, ?_⟩
  · rw [runFetch_result, runFetch_result]
  · rw [runFetch_ring, runFetch_ring]
  · rw [runFetch_snapshots, runFetch_snapshots]
  · intro hc hplat hw
    rw [runFetch_ring]
    rw [if_pos ⟨hc, by simpa [List.isEmpty_iff] using hplat, hw⟩]

theorem metrics_log_failure_harmless_witness :
    (runFetch
      ⟨none, [(("a" : String), "A")], none, [("a", 1)],
       [⟨some "a", some "A", some "p", some "success", some 7, some 1,
         some "h", some ["k"]⟩], none, none, true, "t"⟩
      ⟨[], [], []⟩).state.ring =
      recordFetchMetrics ([] : List Metric)
        (stampBatch [] "t"
          [⟨some "a", some "A", some "p", some "success", some 7, some 1,
            some "h", some ["k"]⟩]).2 := by
  have h := (metrics_log_failure_harmless
    ⟨none, [(("a" : String), "A")], none, [("a", 1)],
     [⟨some "a", some "A", some "p", some "success", some 7, some 1,
       some "h", some ["k"]⟩], none, none, true, "t"⟩
    ⟨[], [], []⟩).2.2.2 rfl (by simp) rfl
  simpa using h

/-! ### C5 — ring and log capacity -/

/-- C5: with capacity `N = _FETCH_METRICS_MAX = 5000`, after appending any
sequence of more than `N` metric records the in-memory ring
(`_fetch_metrics`, fed elementwise through `_record_fetch_metrics`) and the
durable log (`fetch_metrics.jsonl`, fed batchwise through
`_append_fetch_metrics_batch`) each retain exactly the `N` most recent
records, in arrival order (oldest evicted first). -/
theorem metrics_ring_and_log_keep_last_N (xs : List α) (batches : List (List α))
    (hring : FETCH_METRICS_MAX < xs.length)
    (hlog : FETCH_METRICS_MAX < batches.flatten.length) :
    recordFetchMetrics [] xs = takeLast FETCH_METRICS_MAX xs ∧
    (recordFetchMetrics [] xs).length = FETCH_METRICS_MAX ∧
    batches.foldl appendLogBatch [] = takeLast FETCH_METRICS_MAX batches.flatten ∧
    (batches.foldl appendLogBatch []).length = FETCH_METRICS_MAX := by
  have h1 : recordFetchMetrics [] xs = takeLast FETCH_METRICS_MAX xs := by
    unfold recordFetchMetrics
    rw [foldl_dequeAppend_eq_takeLast FETCH_METRICS_MAX [] xs
      (by rw [List.length_nil]; omega), List.nil_append]
  have h2 : batches.foldl appendLogBatch [] =
      takeLast FETCH_METRICS_MAX batches.flatten := by
    rw [foldl_appendLogBatch_eq_takeLast [] batches
      (by rw [List.length_nil]; omega), List.nil_append]
  refine ⟨h1, ?_, h2, ?_⟩
  · rw [h1, length_takeLast]; omega
  · rw [h2, length_takeLast]; omega

theorem metrics_ring_and_log_keep_last_N_witness :
    FETCH_METRICS_MAX < (List.replicate 5001 (0 : ℕ)).length ∧
    (recordFetchMetrics ([] : List ℕ) (List.replicate 5001 0)).length =
      FETCH_METRICS_MAX ∧
    ([List.replicate 5001 (0 : ℕ)].foldl appendLogBatch []).length =
      FETCH_METRICS_MAX := by
  have hx : FETCH_METRICS_MAX < (List.replicate 5001 (0 : ℕ)).length := by
    rw [List.length_replicate]
    unfold FETCH_METRICS_MAX
    omega
  have hb : FETCH_METRICS_MAX < ([List.replicate 5001 (0 : ℕ)].flatten).length := by
    rw [List.flatten_cons, List.flatten_nil, List.append_nil]
    exact hx
  have h := metrics_ring_and_log_keep_last_N (List.replicate 5001 (0 : ℕ))
    [List.replicate 5001 (0 : ℕ)] hx hb
  exact ⟨hx, h.2.1, h.2.2.2⟩

/-! ### C3 — change detection -/

/-- C3: `changed_count` for a source: with no prior snapshot, or an empty
one, it is the number of current ids; otherwise it is the number of current
ids outside the prior snapshot's id set — a set-membership count, invariant
under any reordering/duplication of the stored snapshot.  In particular a
second observation whose ids all lie in the snapshot gives 0, and one
appending only brand-new ids to the unchanged base gives exactly their
number. -/
theorem change_detector_spec (prev : Option (List String)) (current : List String) :
    ((prev = none ∨ prev = some []) → computeChanged prev current = current.length) ∧
    (∀ p, p ≠ [] →
      computeChanged (some p) current = current.countP (fun k => decide (k ∉ p))) ∧
    (∀ p q, p ≠ [] → q ≠ [] → (∀ k, k ∈ p ↔ k ∈ q) →
      computeChanged (some p) current = computeChanged (some q) current) ∧
    (∀ p, p ≠ [] → (∀ k ∈ current, k ∈ p) → computeChanged (some p) current = 0) ∧
    (∀ base fresh, base ≠ [] → (∀ k ∈ fresh, k ∉ base) →
      computeChanged (some base) (base ++ fresh) = fresh.length) := by
  refine ⟨?_, ?_, ?_, ?_, ?_⟩
  · rintro (rfl | rfl) <;> simp [computeChanged]
  · intro p hp
    simp [computeChanged, hp]
  · intro p q hp hq hiff
    simp only [computeChanged, hp, hq, if_neg hp, if_neg hq]
    apply List.countP_congr
    intro k _
    simp [hiff]
  · intro p hp hsub
    simp only [computeChanged, if_neg hp]
    rw [List.countP_eq_zero]
    intro k hk
    simp [hsub k hk]
  · intro base fresh hb hfresh
    simp only [computeChanged, if_neg hb]
    rw [List.countP_append]
    have h1 : base.countP (fun k => decide (k ∉ base)) = 0 := by
      rw [List.countP_eq_zero]
      intro k hk
      simp [hk]
    have h2 : fresh.countP (fun k => decide (k ∉ base)) = fresh.length := by
      rw [List.countP_eq_length]
      intro k hk
      simp [hfresh k hk]
    omega

theorem change_detector_spec_witness :
    computeChanged (some ["a"]) (["a"] ++ ["b", "c"]) = ["b", "c"].length ∧
    computeChanged (some ["a", "b"]) ["b", "a"] = 0 :=
  ⟨(change_detector_spec (some ["a"]) (["a"] ++ ["b", "c"])).2.2.2.2 ["a"]
      ["b", "c"] (by simp) (by decide),
   (change_detector_spec (some ["a", "b"]) ["b", "a"]).2.2.2.1 ["a", "b"]
      (by simp) (by decide)⟩

/-! ### C9 — nested online windows -/

theorem countSince_mono (db : List (String × ℤ)) (now : ℤ) (s t : ℤ)
    (h : s ≤ t) : countSince db now s ≤ countSince db now t := by
  unfold countSince
  induction db with
  | nil => simp
  | cons r rs ih =>
    simp only [List.filter_cons]
    by_cases h1 : now - s ≤ r.2
    · have h2 : now - t ≤ r.2 := by omega
      rw [if_pos (by simpa using h1), if_pos (by simpa using h2)]
      simp only [List.length_cons]
      omega
    · by_cases h2 : now - t ≤ r.2
      · rw [if_neg (by simpa using h1), if_pos (by simpa using h2)]
        simp only [List.length_cons]
        omega
      · rw [if_neg (by simpa using h1), if_neg (by simpa using h2)]
        exact ih

/-- C9: the three windows of `GET /api/online` are range counts with nested
thresholds over the same session table, so for every stored table and query
time, `online_1m ≤ online_5m ≤ online_15m`. -/
theorem online_counts_monotone (db : List (String × ℤ)) (now : ℤ) :
    (onlineStats db now).online_1m ≤ (onlineStats db now).online_5m ∧
    (onlineStats db now).online_5m ≤ (onlineStats db now).online_15m :=
  ⟨countSince_mono db now 60 (5 * 60) (by omega),
   countSince_mono db now (5 * 60) (15 * 60) (by omega)⟩

/-! ### C7 — heartbeat validation -/

/-- C7 counterexample: `" "` is a non-empty session id, yet the ping is
rejected with the 400 response rather than `{ok: true}` (the code strips
the id before checking), so the claim's dichotomy "empty or missing → 400,
non-empty → ok" is false as stated. -/
theorem online_ping_whitespace_counterexample :
    (" " : String) ≠ "" ∧
    (onlinePing [] 0 (some " ")).1 = PingResp.badRequest "Missing session_id" ∧
    (onlinePing [] 0 (some " ")).2 = [] := by
  refine ⟨by decide, rfl, rfl⟩

/-- C7 (amended): a heartbeat whose session id strips to the empty string
(missing body, absent key, empty or whitespace-only id) is answered with
the 400-class `{detail: "Missing session_id"}` and the stored table is
untouched; a heartbeat whose id is non-empty after stripping is answered
`{ok: true}`, the stripped id is stored with `last_seen = now`, and every
other surviving row is a row of the old table with a different key and
`last_seen` within 24 hours. -/
theorem online_ping_spec (db : List (String × ℤ)) (now : ℤ)
    (sessionField : Option String) :
    (pyStrip (sessionField.getD "") = "" →
      onlinePing db now sessionField =
        (PingResp.badRequest "Missing session_id", db)) ∧
    (pyStrip (sessionField.getD "") ≠ "" →
      (onlinePing db now sessionField).1 = PingResp.ok ∧
      (pyStrip (sessionField.getD ""), now) ∈ (onlinePing db now sessionField).2 ∧
      (∀ r ∈ (onlinePing db now sessionField).2,
        r = (pyStrip (sessionField.getD ""), now) ∨
        (r ∈ db ∧ r.1 ≠ pyStrip (sessionField.getD "") ∧ now - 86400 ≤ r.2))) := by
  constructor
  · intro hsid
    unfold onlinePing
    rw [if_pos (by simpa using hsid)]
  · intro hsid
    unfold onlinePing
    rw [if_neg (by simpa using hsid)]
    refine ⟨rfl, ?_, ?_⟩
    · unfold pruneSessions upsertSession
      rw [List.mem_filter]
      constructor
      · simp
      · simp
    · intro r hr
      unfold pruneSessions upsertSession at hr
      rw [List.mem_filter] at hr
      obtain ⟨hmem, hage⟩ := hr
      rw [List.mem_append] at hmem
      rcases hmem with hmem | hmem
      · rw [List.mem_filter] at hmem
        right
        refine ⟨hmem.1, ?_, ?_⟩
        · have h2 := hmem.2
          simp at h2
          exact h2
        · simp at hage
          omega
      · left
        simpa using hmem

theorem online_ping_spec_witness :
    (onlinePing [("old", -100000), ("x", 5)] 0 (some "abc")).1 = PingResp.ok ∧
    (("abc" : String), (0 : ℤ)) ∈
      (onlinePing [("old", -100000), ("x", 5)] 0 (some "abc")).2 := by
  have h := (online_ping_spec [("old", -100000), ("x", 5)] 0 (some "abc")).2
    (by decide)
  exact ⟨h.1, h.2.1⟩

/-! ### C2 — start while running -/

/-- C2 counterexample: a `start` issued while the scheduler is already
running produces exactly the same API payload as one issued while idle —
the unconditional `success: True` message echoing the requested interval —
so no "already running" signal is observable to the caller (the warning is
only a server-side console print); the state is untouched and no task is
spawned. -/
theorem scheduler_start_no_signal_counterexample :
    (apiStartScheduler ⟨true, 30, some 0⟩ 45 1).2 =
      (apiStartScheduler ⟨false, 30, none⟩ 45 1).2 ∧
    (startScheduler ⟨true, 30, some 0⟩ 45 1).state = ⟨true, 30, some 0⟩ ∧
    (startScheduler ⟨true, 30, some 0⟩ 45 1).spawned = none :=
  ⟨rfl, rfl, rfl⟩

/-- C2 (amended): `start` while the scheduler is Running is a no-op — the
scheduler globals (including the stored interval and the task handle) are
unchanged and no second periodic-loop task is created; the already-running
condition is signalled only by the console warning print, while the HTTP
caller receives the same unconditional success payload as for a fresh
start, echoing the requested (not the stored) interval. -/
theorem scheduler_start_while_running (s : SchedulerState)
    (interval newTask : ℕ) (h : s.running = true) :
    (startScheduler s interval newTask).state = s ∧
    (startScheduler s interval newTask).spawned = none ∧
    (startScheduler s interval newTask).log = "⚠️ 定时任务已在运行中" ∧
    (apiStartScheduler s interval newTask).1 = s ∧
    (apiStartScheduler s interval newTask).2 =
      ⟨true, "定时任务已启动，间隔 " ++ toString interval ++ " 分钟", interval⟩ := by
  unfold apiStartScheduler startScheduler
  simp [h]

theorem scheduler_start_while_running_witness :
    (startScheduler ⟨true, 30, some 0⟩ 45 1).state = ⟨true, 30, some 0⟩ ∧
    (apiStartScheduler ⟨true, 30, some 0⟩ 45 1).2 =
      ⟨true, "定时任务已启动，间隔 " ++ toString 45 ++ " 分钟", 45⟩ := by
  have h := scheduler_start_while_running ⟨true, 30, some 0⟩ 45 1 rfl
  exact ⟨h.1, h.2.2.2.2⟩

/-! ### The summary fold of `api_fetch_metrics` -/

theorem assocLookup_append (l₁ l₂ : List (String × β)) (k : String) :
    assocLookup (l₁ ++ l₂) k =
      (match assocLookup l₁ k with
       | some v => some v
       | none => assocLookup l₂ k) := by
  induction l₁ with
  | nil => simp [assocLookup]
  | cons p l ih =>
    rcases p with ⟨k', v'⟩
    by_cases h : k' = k
    · have hb : (k' == k) = true := by simpa using h
      simp [assocLookup, hb]
    · have hb : (k' == k) = false := by simpa using h
      simp [assocLookup, hb, ih]

theorem assocLookup_replace (acc : List (String × β)) (pid : String) (v : β)
    (q : String) :
    assocLookup (acc.map (fun p => if p.1 == pid then (p.1, v) else p)) q =
      (match assocLookup acc q with
       | some w => if q == pid then some v else some w
       | none => none) := by
  induction acc with
  | nil => simp [assocLookup]
  | cons p l ih =>
    rcases p with ⟨k', w'⟩
    by_cases h1 : k' = pid <;> by_cases h2 : k' = q
    · have hb1 : (k' == pid) = true := by simpa using h1
      have hb2 : (k' == q) = true := by simpa using h2
      have hbq : (q == pid) = true := by
        rw [beq_iff_eq, ← h2]
        exact h1
      simp only [List.map_cons, assocLookup, hb1, hb2, hbq,
        eq_self_iff_true, if_true]
    · have hb1 : (k' == pid) = true := by simpa using h1
      have hb2 : (k' == q) = false := by simpa using h2
      simp only [List.map_cons, assocLookup, hb1, hb2, eq_self_iff_true,
        if_true, Bool.false_eq_true, if_false]
      exact ih
    · have hb1 : (k' == pid) = false := by simpa using h1
      have hb2 : (k' == q) = true := by simpa using h2
      have hbq : (q == pid) = false := by
        rw [beq_eq_false_iff_ne, ← h2]
        exact h1
      simp only [List.map_cons, assocLookup, hb1, hb2, hbq,
        eq_self_iff_true, if_true, Bool.false_eq_true, if_false]
    · have hb1 : (k' == pid) = false := by simpa using h1
      have hb2 : (k' == q) = false := by simpa using h2
      simp only [List.map_cons, assocLookup, hb1, hb2, Bool.false_eq_true,
        if_false]
      exact ih

theorem keys_replace (acc : List (String × β)) (pid : String) (v : β) :
    (acc.map (fun p => if p.1 == pid then (p.1, v) else p)).map Prod.fst =
      acc.map Prod.fst := by
  induction acc with
  | nil => rfl
  | cons p l ih =>
    rcases p with ⟨k', w'⟩
    by_cases h : k' = pid
    · have hb : (k' == pid) = true := by simpa using h
      simp only [List.map_cons, hb, eq_self_iff_true, if_true]
      rw [ih]
    · have hb : (k' == pid) = false := by simpa using h
      simp only [List.map_cons, hb, Bool.false_eq_true, if_false]
      rw [ih]

theorem assocLookup_eq_none_iff (acc : List (String × β)) (k : String) :
    assocLookup acc k = none ↔ k ∉ acc.map Prod.fst := by
  induction acc with
  | nil => simp [assocLookup]
  | cons p l ih =>
    by_cases h : p.1 = k
    · have hb : (p.1 == k) = true := by simpa using h
      simp [assocLookup, hb, h]
    · have hb : (p.1 == k) = false := by simpa using h
      simp only [assocLookup, hb, Bool.false_eq_true, if_false, ih,
        List.map_cons, List.mem_cons]
      constructor
      · intro hk hor
        rcases hor with hor | hor
        · exact h hor.symm
        · exact hk hor
      · intro hk hmem
        exact hk (Or.inr hmem)

theorem assocLookup_of_mem_keys_nodup (acc : List (String × β))
    (hnd : (acc.map Prod.fst).Nodup) (pid : String) (e : β)
    (hm : (pid, e) ∈ acc) : assocLookup acc pid = some e := by
  induction acc with
  | nil => simp at hm
  | cons p l ih =>
    rw [List.map_cons, List.nodup_cons] at hnd
    rcases List.mem_cons.mp hm with heq | hmem
    · rw [← heq]
      simp [assocLookup]
    · have hne : p.1 ≠ pid := by
        intro hcontra
        exact hnd.1 (hcontra ▸ List.mem_map_of_mem Prod.fst hmem)
      have hb : (p.1 == pid) = false := by simpa using hne
      simp only [assocLookup, hb, Bool.false_eq_true, if_false]
      exact ih hnd.2 hmem

theorem grp_append_singleton (pid : String) (w : List Metric) (m : Metric) :
    grp pid (w ++ [m]) =
      grp pid w ++ (if groupKey m == pid then [m] else []) := by
  unfold grp
  rw [List.filter_append]
  congr 1
  by_cases h : groupKey m == pid <;> simp [List.filter, h]

theorem updEnt_initEnt (pid : String) (m : Metric) :
    updEnt (initEnt pid m) m = entSpec pid [m] := by
  unfold updEnt initEnt entSpec statusKey durVals cntVals chgVals
  cases hd : m.duration_ms <;> cases hc : m.items_count <;>
    cases hg : m.changed_count <;>
    by_cases h1 : pyStrip (m.status.getD "") == "success" <;>
    by_cases h2 : pyStrip (m.status.getD "") == "cache" <;>
    simp [h1, h2, hd, hc, hg, List.countP_cons, List.countP_nil]

theorem updEnt_entSpec_snoc (pid : String) (g : List Metric) (m : Metric)
    (hg : g ≠ []) :
    updEnt (entSpec pid g) m = entSpec pid (g ++ [m]) := by
  unfold updEnt entSpec statusKey durVals cntVals chgVals
  rw [List.head?_append_of_ne_nil g hg]
  cases hd : m.duration_ms <;> cases hc : m.items_count <;>
    cases hgc : m.changed_count <;>
    by_cases h1 : pyStrip (m.status.getD "") == "success" <;>
    by_cases h2 : pyStrip (m.status.getD "") == "cache" <;>
    simp [h1, h2, hd, hc, hgc, List.countP_append, List.countP_cons,
      List.countP_nil, List.filterMap_append, List.getLast?_concat]

theorem sumStep_eq_replace (acc : List (String × SumEnt)) (m : Metric)
    (e : SumEnt) (hl : assocLookup acc (groupKey m) = some e) :
    sumStep acc m =
      acc.map (fun p => if p.1 == groupKey m then (p.1, updEnt e m) else p) := by
  unfold sumStep
  simp only [hl]

theorem sumStep_eq_append (acc : List (String × SumEnt)) (m : Metric)
    (hl : assocLookup acc (groupKey m) = none) :
    sumStep acc m =
      acc ++ [(groupKey m, updEnt (initEnt (groupKey m) m) m)] := by
  unfold sumStep
  simp only [hl]

theorem sumStep_foldl_append (w : List Metric) (m : Metric) :
    ((w ++ [m]).foldl sumStep []) = sumStep (w.foldl sumStep []) m := by
  rw [List.foldl_append, List.foldl_cons, List.foldl_nil]

theorem summary_keys_nodup (w : List Metric) :
    ((w.foldl sumStep []).map Prod.fst).Nodup := by
  induction w using List.reverseRecOn with
  | nil => simp
  | append_singleton w m ih =>
    rw [sumStep_foldl_append]
    cases hl : assocLookup (w.foldl sumStep []) (groupKey m) with
    | some e =>
      rw [sumStep_eq_replace _ _ _ hl, keys_replace]
      exact ih
    | none =>
      rw [sumStep_eq_append _ _ hl, List.map_append]
      refine List.Nodup.append ih (by simp) ?_
      intro a ha hb
      simp only [List.map_cons, List.map_nil, List.mem_singleton] at hb
      subst hb
      exact ((assocLookup_eq_none_iff _ _).mp hl) ha

theorem summary_lookup (w : List Metric) (pid : String) :
    assocLookup (w.foldl sumStep []) pid =
      (if grp pid w = [] then none else some (entSpec pid (grp pid w))) := by
  induction w using List.reverseRecOn with
  | nil => simp [assocLookup, grp]
  | append_singleton w m ih =>
    rw [sumStep_foldl_append, grp_append_singleton]
    by_cases hk : (groupKey m == pid) = true
    · have hkq : groupKey m = pid := by simpa using hk
      rw [if_pos hk]
      cases hl : assocLookup (w.foldl sumStep []) (groupKey m) with
      | some e =>
        rw [sumStep_eq_replace _ _ _ hl, assocLookup_replace]
        rw [hkq] at hl
        rw [hl]
        rw [ih] at hl
        by_cases hg : grp pid w = []
        · rw [if_pos hg] at hl
          cases hl
        · rw [if_neg hg] at hl
          injection hl with he
          rw [if_neg (by simp : ¬ grp pid w ++ [m] = [])]
          have hpb : (pid == groupKey m) = true := by simp [hkq]
          simp only [hpb, if_true, eq_self_iff_true]
          rw [← updEnt_entSpec_snoc pid (grp pid w) m hg, he]
      | none =>
        rw [sumStep_eq_append _ _ hl, assocLookup_append]
        rw [hkq] at hl
        rw [hl]
        rw [ih] at hl
        have hg : grp pid w = [] := by
          by_cases hgg : grp pid w = []
          · exact hgg
          · rw [if_neg hgg] at hl
            cases hl
        rw [hg]
        simp only [assocLookup, hk, if_true, eq_self_iff_true, List.nil_append]
        rw [if_neg (by simp : ¬ ([m] : List Metric) = [])]
        rw [hkq, updEnt_initEnt]
    · rw [if_neg hk, List.append_nil]
      have hpk : (pid == groupKey m) = false := by
        rw [beq_eq_false_iff_ne]
        intro hc
        exact hk (by simp [hc])
      cases hl : assocLookup (w.foldl sumStep []) (groupKey m) with
      | some e =>
        rw [sumStep_eq_replace _ _ _ hl, assocLookup_replace, ih]
        by_cases hg : grp pid w = []
        · rw [if_pos hg]
        · rw [if_neg hg]
          simp [hpk]
      | none =>
        rw [sumStep_eq_append _ _ hl, assocLookup_append, ih]
        have hb : (groupKey m == pid) = false := by
          rw [beq_eq_false_iff_ne]
          intro hc
          exact hk (by simp [hc])
        have hsing : assocLookup
            [(groupKey m, updEnt (initEnt (groupKey m) m) m)] pid = none := by
          simp [assocLookup, hb]
        by_cases hg : grp pid w = []
        · rw [if_pos hg]
          exact hsing
        · rw [if_neg hg]

theorem summary_mem_char (win : List Metric) (s : SumOut)
    (hs : s ∈ (win.foldl sumStep []).map (fun p => finalizeEnt p.2)) :
    grp s.platform_id win ≠ [] ∧
    s = finalizeEnt (entSpec s.platform_id (grp s.platform_id win)) := by
  rcases List.mem_map.mp hs with ⟨⟨pid, e⟩, hmem, hfin⟩
  have hl := assocLookup_of_mem_keys_nodup _ (summary_keys_nodup win) pid e hmem
  rw [summary_lookup] at hl
  by_cases hg : grp pid win = []
  · rw [if_pos hg] at hl
    cases hl
  · rw [if_neg hg] at hl
    injection hl with he
    have hpid : s.platform_id = pid := by
      rw [← hfin]
      show (finalizeEnt e).platform_id = pid
      rw [← he]
      rfl
    rw [hpid]
    refine ⟨hg, ?_⟩
    rw [← hfin]
    show finalizeEnt e = finalizeEnt (entSpec pid (grp pid win))
    rw [he]

theorem countP_three_partition (g : List α) (p q : α → Bool) :
    g.countP p + g.countP (fun m => !p m && q m) +
      g.countP (fun m => !p m && !q m) = g.length := by
  induction g with
  | nil => rfl
  | cons a l ih =>
    simp only [List.countP_cons, List.length_cons]
    cases hp : p a <;> cases hq : q a <;> simp [hp, hq] <;> omega

theorem filterMetrics_eq (buf : List Metric) (platform provider : Option String) :
    filterMetrics buf platform provider =
      buf.filter (fun m =>
        (!truthy provider || (provKey m == provider.getD "")) &&
        (!truthy platform || (platKey m == platform.getD ""))) := by
  unfold filterMetrics
  cases hp : truthy provider <;> cases ht : truthy platform <;>
    simp only [Bool.false_eq_true, eq_self_iff_true, if_true, if_false]
  · symm
    apply List.filter_eq_self.mpr
    intro m _
    simp
  · apply List.filter_congr
    intro m _
    simp
  · apply List.filter_congr
    intro m _
    simp
  · rw [List.filter_filter]
    apply List.filter_congr
    intro m _
    simp [Bool.and_comm]

theorem avg_if_none_iff {γ : Type} (vs : List ℚ) (f : ℚ → γ) :
    ((if vs.length ≠ 0 then some (f (vs.sum / (vs.length : ℚ))) else none) =
        none ↔ vs = []) := by
  by_cases hz : vs.length = 0
  · have hnil : vs = [] := List.length_eq_zero.mp hz
    simp [hnil]
  · rw [if_pos hz]
    constructor
    · intro h
      exact (Option.some_ne_none _ h).elim
    · intro h
      exact absurd (by simp [h] : vs.length = 0) hz

theorem finalizeEnt_entSpec_avgs (pid : String) (g : List Metric) :
    ((finalizeEnt (entSpec pid g)).avg_duration_ms =
      if (durVals g).length ≠ 0
      then some (pyTrunc ((durVals g).sum / ((durVals g).length : ℚ)))
      else none) ∧
    ((finalizeEnt (entSpec pid g)).avg_items_count =
      if (cntVals g).length ≠ 0
      then some (pyRound2 ((cntVals g).sum / ((cntVals g).length : ℚ)))
      else none) ∧
    ((finalizeEnt (entSpec pid g)).avg_changed_count =
      if (chgVals g).length ≠ 0
      then some (pyRound2 ((chgVals g).sum / ((chgVals g).length : ℚ)))
      else none) ∧
    ((finalizeEnt (entSpec pid g)).avg_duration_ms = none ↔ durVals g = []) ∧
    ((finalizeEnt (entSpec pid g)).avg_items_count = none ↔ cntVals g = []) ∧
    ((finalizeEnt (entSpec pid g)).avg_changed_count = none ↔ chgVals g = []) :=
  ⟨rfl, rfl, rfl, avg_if_none_iff (durVals g) pyTrunc,
   avg_if_none_iff (cntVals g) pyRound2, avg_if_none_iff (chgVals g) pyRound2⟩

/-! ### C6 — the metrics query -/

/-- C6: the records answered by `GET /api/fetch-metrics` are exactly the
most recent `limit` entries — a suffix, of length at most `limit` — of the
in-memory buffer filtered by exact match on the source id (`platform`) and
`provider` parameters; and in every summary entry each of the three
averages is computed over exactly the present numeric values of that field
among that platform's records in the filtered+limited window — when no
record in the window has the field, the average is `None` (omitted), never
0. -/
theorem api_fetch_metrics_spec (buf : List Metric) (limit : ℕ)
    (platform provider : Option String) (hl : 1 ≤ limit) :
    (apiFetchMetrics buf limit platform provider).metrics =
      takeLast limit (buf.filter (fun m =>
        (!truthy provider || (provKey m == provider.getD "")) &&
        (!truthy platform || (platKey m == platform.getD "")))) ∧
    (apiFetchMetrics buf limit platform provider).metrics.length ≤ limit ∧
    (apiFetchMetrics buf limit platform provider).metrics.IsSuffix
      (filterMetrics buf platform provider) ∧
    (∀ s ∈ (apiFetchMetrics buf limit platform provider).summary,
      ∀ g, g = grp s.platform_id (apiFetchMetrics buf limit platform provider).metrics →
        (s.avg_duration_ms =
          if (durVals g).length ≠ 0
          then some (pyTrunc ((durVals g).sum / ((durVals g).length : ℚ)))
          else none) ∧
        (s.avg_items_count =
          if (cntVals g).length ≠ 0
          then some (pyRound2 ((cntVals g).sum / ((cntVals g).length : ℚ)))
          else none) ∧
        (s.avg_changed_count =
          if (chgVals g).length ≠ 0
          then some (pyRound2 ((chgVals g).sum / ((chgVals g).length : ℚ)))
          else none) ∧
        (s.avg_duration_ms = none ↔ durVals g = []) ∧
        (s.avg_items_count = none ↔ cntVals g = []) ∧
        (s.avg_changed_count = none ↔ chgVals g = [])) := by
  refine ⟨?_, ?_, ?_, ?_⟩
  · show takeLast limit (filterMetrics buf platform provider) = _
    rw [filterMetrics_eq]
  · show (takeLast limit (filterMetrics buf platform provider)).length ≤ limit
    rw [length_takeLast]
    omega
  · show List.IsSuffix (takeLast limit (filterMetrics buf platform provider)) _
    unfold takeLast
    exact List.drop_suffix _ _
  · intro s hs g hg
    obtain ⟨hgne, hse⟩ := summary_mem_char
      (takeLast limit (filterMetrics buf platform provider)) s hs
    have hg' : g = grp s.platform_id
        (takeLast limit (filterMetrics buf platform provider)) := hg
    rw [← hg'] at hse
    rw [hse]
    exact finalizeEnt_entSpec_avgs s.platform_id g

theorem api_fetch_metrics_spec_witness :
    (1 : ℕ) ≤ 5 ∧
    (apiFetchMetrics [⟨some "a", none, none, some "success", none, none,
        none, none, none⟩] 5 none none).metrics.length ≤ 5 :=
  ⟨by omega,
   (api_fetch_metrics_spec [⟨some "a", none, none, some "success", none,
      none, none, none, none⟩] 5 none none (by omega)).2.1⟩

/-! ### C10 — status counters partition the group -/

/-- C10: in every summary entry of a metrics query, each record of that
platform in the filtered+limited window is tallied under exactly one of the
three status counters — a record whose stripped status is neither
`success` nor `cache` (including any unrecognized status) is counted under
`error` — so `success + cache + error` equals the number of records
grouped under that platform in the window. -/
theorem summary_status_partition (buf : List Metric) (limit : ℕ)
    (platform provider : Option String) :
    ∀ s ∈ (apiFetchMetrics buf limit platform provider).summary,
      ∀ g, g = grp s.platform_id (apiFetchMetrics buf limit platform provider).metrics →
        s.success = g.countP (fun m => statusKey m == "success") ∧
        s.cache = g.countP (fun m => !(statusKey m == "success") &&
          (statusKey m == "cache")) ∧
        s.error = g.countP (fun m => !(statusKey m == "success") &&
          !(statusKey m == "cache")) ∧
        s.success + s.cache + s.error = g.length := by
  intro s hs g hg
  obtain ⟨hgne, hse⟩ := summary_mem_char
    (takeLast limit (filterMetrics buf platform provider)) s hs
  have hg' : g = grp s.platform_id
      (takeLast limit (filterMetrics buf platform provider)) := hg
  rw [← hg'] at hse
  rw [hse]
  refine ⟨rfl, rfl, rfl, ?_⟩
  exact countP_three_partition _ _ _

theorem summary_status_partition_witness :
    (⟨"a", "a", "", 1, 0, 0, none, none, none, some "success", none, none,
      none⟩ : SumOut).success +
      (⟨"a", "a", "", 1, 0, 0, none, none, none, some "success", none, none,
        none⟩ : SumOut).cache +
      (⟨"a", "a", "", 1, 0, 0, none, none, none, some "success", none, none,
        none⟩ : SumOut).error =
      (grp "a" (apiFetchMetrics [⟨some "a", none, none, some "success", none,
        none, none, none, none⟩] 5 none none).metrics).length := by
  have h := summary_status_partition
    [⟨some "a", none, none, some "success", none, none, none, none, none⟩]
    5 none none
    ⟨"a", "a", "", 1, 0, 0, none, none, none, some "success", none, none, none⟩
    (by decide) _ rfl
  exact h.2.2.2

end TrendRadar
